import Mathlib

/-!
Verification development for the temporary virtual-router proxy
(`virtualrouter`): a shallow embedding of its cleanup coordinator
(`CleanupManager`), DNS-over-HTTPS resolver (`SimpleDoHResolver`) and
forwarding proxy (`LightweightProxy`), together with theorems settling the
specification's claims about them.

Modelling conventions:
* The runtime is single-threaded with cooperative scheduling, so stateful
  code is embedded as explicit state passing and each externally visible
  action (socket write, dial, resolver call, process exit) is recorded as an
  event in a trace list, in the order the source performs it.
* Network outcomes that the code merely reacts to (the DoH HTTP response,
  the conventional-DNS fallback answer, whether an outbound dial succeeds)
  are oracle inputs to the embedded functions.
* JavaScript strings are Lean `String`s; where the source splits a string
  character-by-character the split is performed on the underlying character
  list (`String.data`), matching the semantics of `String.prototype.split`
  with a single-character separator.
-/

namespace VirtualRouter

/-! ### Cleanup coordinator

Embeds `CleanupManager` (source lines 20-61).  A registered handler is
modelled only by its observable behaviour during shutdown: whether invoking
it throws.  Handlers are identified by their registration index, so the
trace events carry indices. -/

/-- A registered cleanup handler, modelled by whether awaiting it throws. -/
structure Handler where
  throws : Bool
deriving DecidableEq

/-- Observable events of a shutdown pass: invoking the handler registered at
index `i`, logging the warning for a handler at index `i` that threw
(source line 49), and `process.exit code` (source line 54). -/
inductive CleanupEvent where
  | invoke (i : Nat)
  | warn (i : Nat)
  | exitProcess (code : Nat)
deriving DecidableEq

/-- State of a `CleanupManager`: the ordered handler list and the
`isCleaning` guard flag (source lines 22-23). -/
structure CleanupManager where
  cleanupHandlers : List Handler
  isCleaning : Bool
deriving DecidableEq

/-- Embeds `addCleanupHandler` (source lines 35-37): push onto the list, so
registration order is list order. -/
def CleanupManager.addCleanupHandler (m : CleanupManager) (h : Handler) :
    CleanupManager :=
  { m with cleanupHandlers := m.cleanupHandlers ++ [h] }

/-- The `for (const handler of this.cleanupHandlers)` loop of `cleanup`
(source lines 45-51), started at registration index `i`: each handler is
invoked inside `try`; a throwing handler additionally logs a warning, and
the loop always continues with the remaining handlers. -/
def runHandlers : Nat → List Handler → List CleanupEvent
  | _, [] => []
  | i, h :: rest =>
    CleanupEvent.invoke i ::
      ((if h.throws then [CleanupEvent.warn i] else []) ++
        runHandlers (i + 1) rest)

/-- Embeds `cleanup` (source lines 39-55).  The guard check and the setting
of `isCleaning` (lines 40-41) happen synchronously, before the first
`await`, so the whole pass is computed from the already-flagged state; the
pass ends with `process.exit(0)` (line 54). -/
def CleanupManager.cleanup (m : CleanupManager) :
    CleanupManager × List CleanupEvent :=
  if m.isCleaning then (m, [])
  else
    ({ m with isCleaning := true },
      runHandlers 0 m.cleanupHandlers ++ [CleanupEvent.exitProcess 0])

/-- Embeds `shutdownFromWeb` (source lines 57-60): the remote web trigger
just calls `cleanup`. -/
def CleanupManager.shutdownFromWeb (m : CleanupManager) :
    CleanupManager × List CleanupEvent :=
  m.cleanup

/-- `n` shutdown triggers delivered one after the other (OS signals,
uncaught exception, `disconnect`, process exit, the web request: source
lines 27-33 and 57-60 all funnel into `cleanup`), with their event traces
concatenated. -/
def triggerMany (m : CleanupManager) : Nat → CleanupManager × List CleanupEvent
  | 0 => (m, [])
  | n + 1 =>
    let s1 := m.cleanup
    let s2 := triggerMany s1.1 n
    (s2.1, s1.2 ++ s2.2)

/-- The registration indices of the handlers invoked in a trace, in
invocation order. -/
def invokesOf : List CleanupEvent → List Nat
  | [] => []
  | CleanupEvent.invoke i :: es => i :: invokesOf es
  | CleanupEvent.warn _ :: es => invokesOf es
  | CleanupEvent.exitProcess _ :: es => invokesOf es

/-! ### DNS-over-HTTPS resolver

Embeds `SimpleDoHResolver.resolve` (source lines 64-85).  The outcome of
the `axios.get` call against the DoH endpoint is an oracle input: `.error ()`
when the HTTP request rejects (network error or the 3000 ms timeout), and
`.ok response` when it fulfils, carrying the parsed JSON body.  The
conventional `dns.resolve4` fallback is a second oracle: `none` when it
reports an error, `some addresses` otherwise. -/

/-- One record of the DoH JSON `Answer` array; the source only reads its
`data` field (line 74). -/
structure DnsAnswer where
  data : String
deriving DecidableEq

/-- The parsed DoH JSON body.  `Answer` is `none` when the `Answer` key is
absent from the response object (the `if (response.data.Answer)` test on
line 73 is then falsy; a present-but-empty array is truthy in JavaScript and
is modelled as `some []`). -/
structure DoHResponse where
  Answer : Option (List DnsAnswer)
deriving DecidableEq

/-- Result of one `resolve` call together with whether the conventional
`dns.resolve4` fallback was consulted. -/
structure ResolveOutcome where
  result : List String
  usedFallback : Bool
deriving DecidableEq

/-- Embeds `SimpleDoHResolver.resolve` (source lines 65-84).  The `try`
block returns the mapped `Answer` data on success; the `catch` block — and
only the `catch` block — consults the `dns.resolve4` fallback, swallowing
its error into `[]`; a fulfilled DoH response without an `Answer` key falls
through to the final `return []` (line 83).  Totality of this function is
the "never raises to the caller" contract. -/
def SimpleDoHResolver.resolveRun (doh : Except Unit DoHResponse)
    (fallback : Option (List String)) : ResolveOutcome :=
  match doh with
  | Except.ok response =>
    match response.Answer with
    | some answers => ⟨answers.map (fun ans => ans.data), false⟩
    | none => ⟨[], false⟩
  | Except.error _ =>
    ⟨(match fallback with
      | some addresses => addresses
      | none => []), true⟩

/-- The address list `resolve` hands to its caller. -/
def SimpleDoHResolver.resolve (doh : Except Unit DoHResponse)
    (fallback : Option (List String)) : List String :=
  (SimpleDoHResolver.resolveRun doh fallback).result

/-! ### Forwarding proxy

Embeds `LightweightProxy.handleRequest` (source lines 124-149) and
`LightweightProxy.handleHttps` (source lines 151-172).  Each handler is a
function from its request data and the network oracles (DoH outcome,
fallback outcome, whether the outbound `net.connect` dial succeeds) to the
trace of externally visible actions it performs, in source order. -/

/-- JavaScript string-splitting on a single-character separator, on the
underlying character list: `"".split(c) = [""]`, and every occurrence of
`c` separates (possibly empty) fields. -/
def splitOnChar (c : Char) : List Char → List (List Char)
  | [] => [[]]
  | x :: xs =>
    let r := splitOnChar c xs
    if x = c then [] :: r
    else (x :: r.headD []) :: r.tail

/-- `url.split(sep)` for a one-character separator, as used on source
line 153. -/
def jsSplit (c : Char) (s : String) : List String :=
  (splitOnChar c s.data).map String.mk

/-- JavaScript `s || default` for an optionally-absent string: `undefined`
and the empty string are falsy. -/
def jsOrDefault (o : Option String) (d : String) : String :=
  match o with
  | none => d
  | some s => if s = "" then d else s

/-- JavaScript `s || default` for a string that is always present (the
WHATWG `URL.port` component, which is `""` when the URL carries no explicit
port). -/
def jsStrOrDefault (s : String) (d : String) : String :=
  if s = "" then d else s

/-- The components of `new URL(clientReq.url, "http://" + host)` that
`handleRequest` reads (source line 126): the hostname and the WHATWG `port`
component (`""` when absent). -/
structure UrlParts where
  hostname : String
  port : String
deriving DecidableEq

/-- Observable actions of the plain-HTTP path, in the order `handleRequest`
performs them. -/
inductive HttpEvent where
  | resolveCall (hostname : String)
  | writeHead (status : Nat)
  | endBody (body : String)
  | dialStart (port : String) (address : String)
  | pipeReqToUpstream
  | pipeUpstreamToRes
deriving DecidableEq

/-- Embeds `handleRequest` (source lines 124-149).  `urlParse` is the
outcome of the `new URL(...)` constructor (line 126), which throws on a
malformed target and is the only statement its `catch` (lines 145-148) can
observe failing; `dialOk` is whether the `net.connect` dial succeeds.  On
dial failure the socket error handler answers 502 (lines 140-143); on
success the request body stream is piped to the upstream socket and the raw
upstream bytes are piped into the client response (lines 136-137). -/
def LightweightProxy.handleRequest (urlParse : Except Unit UrlParts)
    (doh : Except Unit DoHResponse) (fallback : Option (List String))
    (dialOk : Bool) : List HttpEvent :=
  match urlParse with
  | Except.error _ => [HttpEvent.writeHead 500, HttpEvent.endBody "Proxy Error"]
  | Except.ok u =>
    let addresses := SimpleDoHResolver.resolve doh fallback
    if addresses.length = 0 then
      [HttpEvent.resolveCall u.hostname, HttpEvent.writeHead 502,
        HttpEvent.endBody "DNS Failed"]
    else
      HttpEvent.resolveCall u.hostname ::
        HttpEvent.dialStart (jsStrOrDefault u.port "80") (addresses.headD "") ::
        (if dialOk then [HttpEvent.pipeReqToUpstream, HttpEvent.pipeUpstreamToRes]
          else [HttpEvent.writeHead 502, HttpEvent.endBody "Connection Failed"])

/-- Observable actions of the CONNECT path, in the order `handleHttps`
performs them. -/
inductive ConnectEvent where
  | resolveCall (hostname : String)
  | dialStart (port : String) (address : String)
  | writeClient (s : String)
  | writeUpstream (s : String)
  | pipeBoth
  | clientEnd
  | upstreamEnd
deriving DecidableEq

/-- Result of `handleHttps`: the performed actions, plus the reactions its
installed error listeners would perform on a later socket error (source
lines 164-165); the listeners exist only on the dialing branch. -/
structure ConnectOutcome where
  events : List ConnectEvent
  onUpstreamError : Option ConnectEvent
  onClientError : Option ConnectEvent
deriving DecidableEq

/-- The literal tunnel-established response written on source line 158. -/
def connectionEstablished : String :=
  "HTTP/1.1 200 Connection Established\r\n\r\n"

/-- Embeds `handleHttps` (source lines 151-172).  The request target is
split at every colon and destructured into its first two fields
(line 153); resolution precedes everything else; only a non-empty address
list dials, and only a successful dial writes the 200 line, forwards the
buffered `head` bytes and starts the bidirectional pipe (lines 156-162).
A failed dial fires the upstream error listener, which ends the client
socket; an empty address list ends the client socket with nothing written
(line 167). -/
def LightweightProxy.handleHttps (url : String)
    (doh : Except Unit DoHResponse) (fallback : Option (List String))
    (head : String) (dialOk : Bool) : ConnectOutcome :=
  let parts := jsSplit ':' url
  let hostname := parts.headD ""
  let port := parts[1]?
  let addresses := SimpleDoHResolver.resolve doh fallback
  if addresses.length > 0 then
    { events := ConnectEvent.resolveCall hostname ::
        ConnectEvent.dialStart (jsOrDefault port "443") (addresses.headD "") ::
        (if dialOk then
          [ConnectEvent.writeClient connectionEstablished,
            ConnectEvent.writeUpstream head, ConnectEvent.pipeBoth]
        else [ConnectEvent.clientEnd]),
      onUpstreamError := some ConnectEvent.clientEnd,
      onClientError := some ConnectEvent.upstreamEnd }
  else
    { events := [ConnectEvent.resolveCall hostname, ConnectEvent.clientEnd],
      onUpstreamError := none,
      onClientError := none }

/-- The `(port, address)` arguments of every `net.connect` dial in a
plain-HTTP trace. -/
def httpDials : List HttpEvent → List (String × String)
  | [] => []
  | HttpEvent.dialStart p a :: es => (p, a) :: httpDials es
  | HttpEvent.resolveCall _ :: es => httpDials es
  | HttpEvent.writeHead _ :: es => httpDials es
  | HttpEvent.endBody _ :: es => httpDials es
  | HttpEvent.pipeReqToUpstream :: es => httpDials es
  | HttpEvent.pipeUpstreamToRes :: es => httpDials es

/-- The `(port, address)` arguments of every `net.connect` dial in a
CONNECT trace. -/
def connectDials : List ConnectEvent → List (String × String)
  | [] => []
  | ConnectEvent.dialStart p a :: es => (p, a) :: connectDials es
  | ConnectEvent.resolveCall _ :: es => connectDials es
  | ConnectEvent.writeClient _ :: es => connectDials es
  | ConnectEvent.writeUpstream _ :: es => connectDials es
  | ConnectEvent.pipeBoth :: es => connectDials es
  | ConnectEvent.clientEnd :: es => connectDials es
  | ConnectEvent.upstreamEnd :: es => connectDials es

/-! ### Byte-level behaviour of the plain-HTTP relay

The success branch of `handleRequest` relays with
`clientReq.pipe(targetSocket)` and `targetSocket.pipe(clientRes)`
(source lines 136-137).  In Node, `clientReq` is an `http.IncomingMessage`:
a readable stream of the request *body* only — the request line and headers
were already consumed by the HTTP parser.  `clientRes` is an
`http.ServerResponse`: piping raw bytes into it emits them as the body of a
response whose status line and headers Node generates implicitly (status
200, since the success branch never calls `writeHead`).  The following
definitions record exactly this. -/

/-- An HTTP request as the client sent it to the proxy. -/
structure HttpExchange where
  requestLine : String
  requestHeaders : String
  requestBody : String
deriving DecidableEq

/-- The bytes the upstream receives from `clientReq.pipe(targetSocket)`
(source line 136): the body stream only. -/
def bytesSentUpstream (req : HttpExchange) : String :=
  req.requestBody

/-- The raw wire encoding of an upstream HTTP response. -/
def rawHttpResponse (status : Nat) (reason : String) (body : String) :
    String :=
  "HTTP/1.1 " ++ toString status ++ " " ++ reason ++ "\r\n\r\n" ++ body

/-- What the client receives when `targetSocket.pipe(clientRes)`
(source line 137) runs with no preceding `writeHead`: Node's implicit
status 200, with the upstream's raw bytes as the body. -/
def relayedClientResponse (upstreamRaw : String) : Nat × String :=
  (200, upstreamRaw)

/-- What a direct (proxy-less) request to the upstream yields the client:
the upstream's own status and body.  This definition follows the
specification's words ("the same response body and the same response status
that the upstream would return to a direct request") and is the comparison
point for the pass-through-fidelity claim. -/
def directClientResponse (status : Nat) (body : String) : Nat × String :=
  (status, body)

/-! ### Helper lemmas -/

theorem invokesOf_append (l₁ l₂ : List CleanupEvent) :
    invokesOf (l₁ ++ l₂) = invokesOf l₁ ++ invokesOf l₂ := by
  induction l₁ with
  | nil => rfl
  | cons e es ih => cases e <;> simp [invokesOf, ih]

theorem invokesOf_runHandlers (hs : List Handler) (i : Nat) :
    invokesOf (runHandlers i hs) = List.range' i hs.length := by
  induction hs generalizing i with
  | nil => rfl
  | cons h rest ih =>
    by_cases ht : h.throws <;>
      simp [runHandlers, ht, invokesOf, invokesOf_append, ih, List.range'_succ]

theorem count_invoke_eq (tr : List CleanupEvent) (i : Nat) :
    tr.count (CleanupEvent.invoke i) = (invokesOf tr).count i := by
  induction tr with
  | nil => rfl
  | cons e es ih =>
    cases e with
    | invoke j =>
      by_cases hj : j = i <;>
        simp [invokesOf, List.count_cons, ih, hj]
    | warn j => simp [invokesOf, List.count_cons, ih]
    | exitProcess c => simp [invokesOf, List.count_cons, ih]

theorem cleanup_of_flagged (m : CleanupManager) (h : m.isCleaning = true) :
    m.cleanup = (m, []) := by
  simp [CleanupManager.cleanup, h]

theorem triggerMany_of_flagged (m : CleanupManager) (h : m.isCleaning = true) :
    ∀ n, triggerMany m n = (m, []) := by
  intro n
  induction n with
  | zero => rfl
  | succ k ih => simp [triggerMany, cleanup_of_flagged m h, ih]

theorem triggerMany_fresh (hs : List Handler) (n : Nat) :
    triggerMany ⟨hs, false⟩ (n + 1) =
      (⟨hs, true⟩, runHandlers 0 hs ++ [CleanupEvent.exitProcess 0]) := by
  have h1 : (⟨hs, false⟩ : CleanupManager).cleanup =
      (⟨hs, true⟩, runHandlers 0 hs ++ [CleanupEvent.exitProcess 0]) := by
    simp [CleanupManager.cleanup]
  simp [triggerMany, h1, triggerMany_of_flagged ⟨hs, true⟩ rfl n]

theorem warn_mem_runHandlers (hs : List Handler) (j k : Nat)
    (hk : k < hs.length) (ht : (hs.get ⟨k, hk⟩).throws = true) :
    CleanupEvent.warn (j + k) ∈ runHandlers j hs := by
  induction hs generalizing j k with
  | nil => exact absurd hk (by simp)
  | cons h rest ih =>
    cases k with
    | zero =>
      simp only [List.get] at ht
      simp [runHandlers, ht]
    | succ k' =>
      have hk' : k' < rest.length := Nat.lt_of_succ_lt_succ hk
      have := ih (j + 1) k' hk' ht
      have harith : j + 1 + k' = j + (k' + 1) := by omega
      rw [harith] at this
      simp [runHandlers, this]

theorem splitOnChar_eq_cons (c : Char) (l : List Char) :
    ∃ t, splitOnChar c l = l.takeWhile (fun x => x != c) :: t := by
  induction l with
  | nil => exact ⟨[], rfl⟩
  | cons x xs ih =>
    obtain ⟨t, ht⟩ := ih
    by_cases hx : x = c
    · subst hx
      exact ⟨splitOnChar x xs, by simp [splitOnChar]⟩
    · exact ⟨t, by simp [splitOnChar, hx, ht]⟩

theorem splitOnChar_append (c : Char) (a b : List Char) (ha : c ∉ a) :
    splitOnChar c (a ++ c :: b) = a :: splitOnChar c b := by
  induction a with
  | nil => simp [splitOnChar]
  | cons x xs ih =>
    have hx : ¬(x = c) := fun hxc => ha (by simp [hxc])
    have hxs : c ∉ xs := fun hmem => ha (List.mem_cons_of_mem _ hmem)
    simp [splitOnChar, hx, ih hxs]

/-! ### Claims about the cleanup coordinator -/

/-- Claim C1: no matter how many shutdown triggers a session receives
(signals, uncaught fault, process exit, the remote web request — all of
which call `cleanup`), the cleanup pass executes at most once: the first
call latches the `isCleaning` guard, and across the whole trigger sequence
every registered handler is invoked exactly once — never twice, never zero
times. -/
theorem cleanup_exactly_once_per_session (hs : List Handler) (n : Nat)
    (hn : 0 < n) :
    invokesOf (triggerMany ⟨hs, false⟩ n).2 = List.range hs.length ∧
    (∀ i, i < hs.length →
      ((triggerMany ⟨hs, false⟩ n).2).count (CleanupEvent.invoke i) = 1) ∧
    (triggerMany ⟨hs, false⟩ n).1.isCleaning = true := by
  obtain ⟨k, rfl⟩ : ∃ k, n = k + 1 := ⟨n - 1, by omega⟩
  rw [triggerMany_fresh]
  have htr : invokesOf (runHandlers 0 hs ++ [CleanupEvent.exitProcess 0]) =
      List.range hs.length := by
    rw [invokesOf_append, invokesOf_runHandlers, List.range_eq_range']
    simp [invokesOf]
  refine ⟨htr, ?_, rfl⟩
  intro i hi
  rw [count_invoke_eq, htr]
  exact List.count_eq_one_of_mem (List.nodup_range _) (List.mem_range.mpr hi)

theorem cleanup_exactly_once_per_session_witness :
    0 < 3 ∧
    invokesOf (triggerMany ⟨[⟨false⟩, ⟨true⟩], false⟩ 3).2 = List.range 2 :=
  ⟨by decide, (cleanup_exactly_once_per_session [⟨false⟩, ⟨true⟩] 3 (by decide)).1⟩

/-- Claim C7: during the single cleanup pass the handlers are invoked in
registration order (the invoked indices are exactly `0, 1, ...` in order);
a throwing handler has its failure logged (`warn`) and prevents no later
handler (every index is still invoked); and the very last action of the
pass is `process.exit(0)`. -/
theorem cleanup_order_fault_tolerance_exit (hs : List Handler) :
    invokesOf (CleanupManager.cleanup ⟨hs, false⟩).2 = List.range hs.length ∧
    ((CleanupManager.cleanup ⟨hs, false⟩).2).getLast? =
      some (CleanupEvent.exitProcess 0) ∧
    ∀ k (hk : k < hs.length), (hs.get ⟨k, hk⟩).throws = true →
      CleanupEvent.warn k ∈ (CleanupManager.cleanup ⟨hs, false⟩).2 := by
  have hcl : CleanupManager.cleanup ⟨hs, false⟩ =
      (⟨hs, true⟩, runHandlers 0 hs ++ [CleanupEvent.exitProcess 0]) := by
    simp [CleanupManager.cleanup]
  rw [hcl]
  refine ⟨?_, ?_, ?_⟩
  · rw [invokesOf_append, invokesOf_runHandlers, List.range_eq_range']
    simp [invokesOf]
  · exact List.getLast?_concat _
  · intro k hk ht
    have hmem := warn_mem_runHandlers hs 0 k hk ht
    rw [Nat.zero_add] at hmem
    exact List.mem_append_left _ hmem

theorem cleanup_order_fault_tolerance_exit_witness :
    (0 : Nat) < 2 ∧
    CleanupEvent.warn 0 ∈ (CleanupManager.cleanup ⟨[⟨true⟩, ⟨false⟩], false⟩).2 :=
  ⟨by decide,
    (cleanup_order_fault_tolerance_exit [⟨true⟩, ⟨false⟩]).2.2 0 (by decide)
      (by decide)⟩

/-- Claim C9: the `isCleaning` guard is set synchronously before the first
handler is invoked — the state in effect for the whole handler loop (and
the state `cleanup` returns) already carries the flag — so any re-entrant
`cleanup` call made mid-shutdown (a second signal, or the `exit` event
fired by the final `process.exit(0)`) observes the flag and returns
immediately, invoking no handler. -/
theorem cleanup_guard_precedes_handlers (m : CleanupManager)
    (h : m.isCleaning = false) :
    (CleanupManager.cleanup m).1.isCleaning = true ∧
    (CleanupManager.cleanup m).1 = { m with isCleaning := true } ∧
    CleanupManager.cleanup { m with isCleaning := true } =
      ({ m with isCleaning := true }, []) ∧
    invokesOf (CleanupManager.cleanup { m with isCleaning := true }).2 = [] := by
  refine ⟨?_, ?_, ?_, ?_⟩ <;> simp [CleanupManager.cleanup, h, invokesOf]

theorem cleanup_guard_precedes_handlers_witness :
    (⟨[⟨false⟩], false⟩ : CleanupManager).isCleaning = false ∧
    (CleanupManager.cleanup ⟨[⟨false⟩], false⟩).1.isCleaning = true :=
  ⟨rfl, (cleanup_guard_precedes_handlers ⟨[⟨false⟩], false⟩ rfl).1⟩

/-! ### Claims about the resolver -/

/-- Claim C2 counterexample: when the DoH query fulfils but carries no
usable answer records (`Answer` absent), `resolve` does NOT fall back to
conventional resolution — it returns `[]` even though the fallback would
have answered `["9.9.9.9"]` — refuting the claim that every no-usable-answer
outcome falls back exactly once. -/
theorem resolve_no_fallback_on_missing_answer :
    (SimpleDoHResolver.resolveRun (Except.ok ⟨none⟩)
      (some ["9.9.9.9"])).usedFallback = false ∧
    SimpleDoHResolver.resolve (Except.ok ⟨none⟩) (some ["9.9.9.9"]) = [] ∧
    SimpleDoHResolver.resolve (Except.ok ⟨none⟩) (some ["9.9.9.9"]) ≠
      ["9.9.9.9"] := by
  refine ⟨rfl, rfl, ?_⟩
  decide

/-- Claim C2 (amended): `resolve` never raises to its caller (it is total);
when the DoH query errors or times out it falls back exactly once to the
conventional resolver and returns its addresses, or `[]` when that also
fails; when the DoH query fulfils — even with no usable answer records —
the fallback is not consulted, and the no-answer case yields `[]`. -/
theorem resolve_never_raises_fallback_policy
    (fallback : Option (List String)) (r : DoHResponse) :
    (SimpleDoHResolver.resolveRun (Except.error ()) fallback).usedFallback =
      true ∧
    SimpleDoHResolver.resolve (Except.error ()) fallback = fallback.getD [] ∧
    (SimpleDoHResolver.resolveRun (Except.ok r) fallback).usedFallback =
      false ∧
    (fallback = none →
      SimpleDoHResolver.resolve (Except.error ()) fallback = []) ∧
    (r.Answer = none → SimpleDoHResolver.resolve (Except.ok r) fallback = []) := by
  refine ⟨rfl, ?_, ?_, ?_, ?_⟩
  · cases fallback <;> rfl
  · cases hA : r.Answer <;>
      simp [SimpleDoHResolver.resolveRun, hA]
  · rintro rfl
    rfl
  · intro hA
    simp [SimpleDoHResolver.resolve, SimpleDoHResolver.resolveRun, hA]

theorem resolve_never_raises_fallback_policy_witness :
    (none : Option (List String)) = none ∧
    SimpleDoHResolver.resolve (Except.error ()) none = [] :=
  ⟨rfl, (resolve_never_raises_fallback_policy none ⟨none⟩).2.2.2.1 rfl⟩

/-- Claim C8: when the DoH query fulfils with an `Answer` array, `resolve`
returns exactly the `data` fields of those records, in response order,
with no reordering, filtering or additions — the result is literally the
`map` of the `data` projection over the `Answer` array. -/
theorem resolve_preserves_doh_answers (answers : List DnsAnswer)
    (fallback : Option (List String)) :
    SimpleDoHResolver.resolve (Except.ok ⟨some answers⟩) fallback =
      answers.map DnsAnswer.data := rfl

/-! ### Claims about the forwarding proxy -/

/-- Claim C3: when resolution yields an empty address list, the plain-HTTP
path answers 502 and terminates the response without ever dialing upstream,
and the CONNECT path ends the client socket immediately, writing nothing
and dialing nothing. -/
theorem resolution_failure_surfacing (u : UrlParts) (url : String)
    (doh : Except Unit DoHResponse) (fallback : Option (List String))
    (head : String) (dialOk : Bool)
    (h : SimpleDoHResolver.resolve doh fallback = []) :
    LightweightProxy.handleRequest (Except.ok u) doh fallback dialOk =
      [HttpEvent.resolveCall u.hostname, HttpEvent.writeHead 502,
        HttpEvent.endBody "DNS Failed"] ∧
    httpDials (LightweightProxy.handleRequest (Except.ok u) doh fallback
      dialOk) = [] ∧
    (LightweightProxy.handleHttps url doh fallback head dialOk).events =
      [ConnectEvent.resolveCall ((jsSplit ':' url).headD ""),
        ConnectEvent.clientEnd] ∧
    connectDials (LightweightProxy.handleHttps url doh fallback head
      dialOk).events = [] ∧
    ∀ s, ConnectEvent.writeClient s ∉
      (LightweightProxy.handleHttps url doh fallback head dialOk).events := by
  have h1 : LightweightProxy.handleRequest (Except.ok u) doh fallback dialOk =
      [HttpEvent.resolveCall u.hostname, HttpEvent.writeHead 502,
        HttpEvent.endBody "DNS Failed"] := by
    simp [LightweightProxy.handleRequest, h]
  have h2 : (LightweightProxy.handleHttps url doh fallback head dialOk).events =
      [ConnectEvent.resolveCall ((jsSplit ':' url).headD ""),
        ConnectEvent.clientEnd] := by
    simp [LightweightProxy.handleHttps, h]
  refine ⟨h1, ?_, h2, ?_, ?_⟩
  · rw [h1]
    rfl
  · rw [h2]
    rfl
  · intro s
    rw [h2]
    simp

theorem resolution_failure_surfacing_witness :
    SimpleDoHResolver.resolve (Except.error ()) none = [] ∧
    LightweightProxy.handleRequest (Except.ok ⟨"example.com", ""⟩)
        (Except.error ()) none true =
      [HttpEvent.resolveCall "example.com", HttpEvent.writeHead 502,
        HttpEvent.endBody "DNS Failed"] :=
  ⟨rfl, (resolution_failure_surfacing ⟨"example.com", ""⟩ "example.com:443"
      (Except.error ()) none "" true rfl).1⟩

/-- Claim C4: for a CONNECT request whose resolution is non-empty and whose
dial succeeds, the literal `HTTP/1.1 200 Connection Established` line plus
blank line reaches the client only after the dial (it follows `dialStart`
in the trace, and a failed dial writes nothing to the client), then the
buffered head bytes go upstream, then the bidirectional relay starts; an
error on the upstream socket ends the client socket and vice versa. -/
theorem connect_success_ordering (url head : String)
    (doh : Except Unit DoHResponse) (fallback : Option (List String))
    (addr : String) (rest : List String)
    (h : SimpleDoHResolver.resolve doh fallback = addr :: rest) :
    (LightweightProxy.handleHttps url doh fallback head true).events =
      [ConnectEvent.resolveCall ((jsSplit ':' url).headD ""),
        ConnectEvent.dialStart (jsOrDefault (jsSplit ':' url)[1]? "443") addr,
        ConnectEvent.writeClient "HTTP/1.1 200 Connection Established\r\n\r\n",
        ConnectEvent.writeUpstream head, ConnectEvent.pipeBoth] ∧
    (LightweightProxy.handleHttps url doh fallback head true).onUpstreamError =
      some ConnectEvent.clientEnd ∧
    (LightweightProxy.handleHttps url doh fallback head true).onClientError =
      some ConnectEvent.upstreamEnd ∧
    ∀ s, ConnectEvent.writeClient s ∉
      (LightweightProxy.handleHttps url doh fallback head false).events := by
  refine ⟨?_, ?_, ?_, ?_⟩
  · simp [LightweightProxy.handleHttps, h, connectionEstablished]
  · simp [LightweightProxy.handleHttps, h]
  · simp [LightweightProxy.handleHttps, h]
  · intro s
    simp [LightweightProxy.handleHttps, h]

theorem connect_success_ordering_witness :
    SimpleDoHResolver.resolve (Except.ok ⟨some [⟨"1.2.3.4"⟩]⟩) none =
      "1.2.3.4" :: [] ∧
    (LightweightProxy.handleHttps "example.com:443"
        (Except.ok ⟨some [⟨"1.2.3.4"⟩]⟩) none "hello" true).onUpstreamError =
      some ConnectEvent.clientEnd :=
  ⟨rfl, (connect_success_ordering "example.com:443" "hello"
      (Except.ok ⟨some [⟨"1.2.3.4"⟩]⟩) none "1.2.3.4" [] rfl).2.1⟩

/-- Claim C5 (code bug): pass-through fidelity fails. On the success path
`handleRequest` performs no `writeHead` before piping the upstream's raw
bytes into the client response (first conjunct: the trace holds no
`writeHead`), so Node frames the relayed bytes inside its own implicit
status-200 response; and only the request body — empty for a GET — is ever
sent upstream, never the request line or headers. At the concrete input, a
GET whose upstream would answer 404 "missing" directly, the proxied client
sees status 200 with the raw upstream response as its body, not the
upstream's own status and body. -/
theorem http_passthrough_fidelity_fails :
    LightweightProxy.handleRequest (Except.ok ⟨"example.local", ""⟩)
        (Except.ok ⟨some [⟨"93.184.216.34"⟩]⟩) none true =
      [HttpEvent.resolveCall "example.local",
        HttpEvent.dialStart "80" "93.184.216.34",
        HttpEvent.pipeReqToUpstream, HttpEvent.pipeUpstreamToRes] ∧
    bytesSentUpstream ⟨"GET http://example.local/ HTTP/1.1",
        "Host: example.local", ""⟩ = "" ∧
    relayedClientResponse (rawHttpResponse 404 "Not Found" "missing") ≠
      directClientResponse 404 "missing" ∧
    (relayedClientResponse (rawHttpResponse 404 "Not Found" "missing")).1 =
      200 := by
  refine ⟨by decide, rfl, by decide, rfl⟩

/-- Claim C6: on both paths an upstream dial happens only when resolution
returned a non-empty list — an empty list (or a failed URL parse) produces
no dial at all — and the single dial targets the first resolved address on
the request's declared port, defaulting to 80 (plain HTTP) or 443 (CONNECT)
when no port is declared; the resolver call is always the first action, so
resolution completes before any dial. -/
theorem dial_guard_and_target (u : UrlParts) (url : String)
    (doh : Except Unit DoHResponse) (fallback : Option (List String))
    (head : String) (dialOk : Bool) :
    httpDials (LightweightProxy.handleRequest (Except.ok u) doh fallback
        dialOk) =
      (match SimpleDoHResolver.resolve doh fallback with
       | [] => []
       | addr :: _ => [(jsStrOrDefault u.port "80", addr)]) ∧
    httpDials (LightweightProxy.handleRequest (Except.error ()) doh fallback
      dialOk) = [] ∧
    connectDials (LightweightProxy.handleHttps url doh fallback head
        dialOk).events =
      (match SimpleDoHResolver.resolve doh fallback with
       | [] => []
       | addr :: _ => [(jsOrDefault (jsSplit ':' url)[1]? "443", addr)]) ∧
    (LightweightProxy.handleRequest (Except.ok u) doh fallback dialOk).head? =
      some (HttpEvent.resolveCall u.hostname) ∧
    (LightweightProxy.handleHttps url doh fallback head dialOk).events.head? =
      some (ConnectEvent.resolveCall ((jsSplit ':' url).headD "")) := by
  refine ⟨?_, ?_, ?_, ?_, ?_⟩
  · cases hres : SimpleDoHResolver.resolve doh fallback <;> cases dialOk <;>
      simp [LightweightProxy.handleRequest, hres, httpDials]
  · simp [LightweightProxy.handleRequest, httpDials]
  · cases hres : SimpleDoHResolver.resolve doh fallback <;> cases dialOk <;>
      simp [LightweightProxy.handleHttps, hres, connectDials]
  · cases hres : SimpleDoHResolver.resolve doh fallback <;> cases dialOk <;>
      simp [LightweightProxy.handleRequest, hres]
  · cases hres : SimpleDoHResolver.resolve doh fallback <;> cases dialOk <;>
      simp [LightweightProxy.handleHttps, hres]

/-- Claim C10: for every CONNECT request the hostname handed to the
resolver is the substring of the request target before the first colon, and
the dial port is the field between the first and second colon interpreted
under JavaScript falsiness — 443 when that field is absent or empty; a
target with several colons, such as the bracketed IPv6 literal
`[::1]:8443`, is therefore split at the first colon rather than at the
host/port boundary. -/
theorem connect_split_first_colon (a b : List Char) (ha : ':' ∉ a)
    (doh : Except Unit DoHResponse) (fallback : Option (List String))
    (head : String) (dialOk : Bool) :
    (LightweightProxy.handleHttps (String.mk (a ++ ':' :: b)) doh fallback
        head dialOk).events.head? =
      some (ConnectEvent.resolveCall (String.mk a)) ∧
    connectDials (LightweightProxy.handleHttps (String.mk (a ++ ':' :: b))
        doh fallback head dialOk).events =
      (match SimpleDoHResolver.resolve doh fallback with
       | [] => []
       | addr :: _ =>
         [(jsOrDefault (some (String.mk (b.takeWhile (fun x => x != ':'))))
             "443", addr)]) := by
  obtain ⟨t, htb⟩ := splitOnChar_eq_cons ':' b
  have hdata : (String.mk (a ++ ':' :: b)).data = a ++ ':' :: b := rfl
  have hsplit : jsSplit ':' (String.mk (a ++ ':' :: b)) =
      String.mk a :: String.mk (b.takeWhile (fun x => x != ':')) ::
        t.map String.mk := by
    simp only [jsSplit, hdata, splitOnChar_append ':' a b ha, htb,
      List.map_cons]
  constructor
  · cases hres : SimpleDoHResolver.resolve doh fallback <;> cases dialOk <;>
      simp [LightweightProxy.handleHttps, hsplit, hres]
  · cases hres : SimpleDoHResolver.resolve doh fallback <;> cases dialOk <;>
      simp [LightweightProxy.handleHttps, hsplit, hres, connectDials]

theorem connect_split_first_colon_witness :
    ':' ∉ ['['] ∧
    (LightweightProxy.handleHttps (String.mk (['['] ++ ':' :: (":1]:8443").data))
        (Except.ok ⟨some [⟨"1.2.3.4"⟩]⟩) none "" true).events.head? =
      some (ConnectEvent.resolveCall (String.mk ['['])) :=
  ⟨by decide, (connect_split_first_colon ['['] (":1]:8443").data (by decide)
      (Except.ok ⟨some [⟨"1.2.3.4"⟩]⟩) none "" true).1⟩

end VirtualRouter
